import Mathlib

/-
  Verification development for the schedule-resolution core of the
  RMS_Project digital-signage backend.

  Shallow embedding conventions:
  - Instants are modelled at minute resolution.  A LocalNow value is the
    current instant as seen in one IANA zone: a linear day index (encoding
    the order of YYYY-MM-DD date strings), the weekday (0 = Sunday ..
    6 = Saturday, moment's now.day()), the day-of-month (now.date()) and
    the minutes elapsed since local midnight.
  - A ZV (zone view) maps a zone name to the LocalNow in that zone; each
    schedule is evaluated in its own zone exactly as the source calls
    moment.tz(schedule.timezone).
  - Stored calendar dates carry their linear day index and day-of-month.
  - Mongoose populate with a match filter is modelled by an Option-valued
    contentId: items whose referenced content is missing or unapproved
    populate to none and are filtered out downstream, as in the source.
  - try/catch around repository calls is modelled by Except-valued fetch
    results; the catch branches are translated faithfully.
-/

namespace RMS

/-- Time of day, from an HH:MM string already split and mapped by Number. -/
structure HM where
  hour : Nat
  minute : Nat
  deriving DecidableEq, Repr

/-- A stored calendar date as seen in the schedule zone. -/
structure SDate where
  day : Nat
  dayOfMonth : Nat
  deriving DecidableEq, Repr

/-- The current instant rendered in one timezone. -/
structure LocalNow where
  day : Nat
  weekday : Nat
  dayOfMonth : Nat
  minutes : Nat
  deriving DecidableEq, Repr

/-- A piece of approved content; only its identity matters to resolution. -/
structure Content where
  id : Nat
  deriving DecidableEq, Repr

/-- One entry of a schedule content array.  contentId is none when the
referenced content failed to populate (missing or not approved). -/
structure ContentItem where
  contentId : Option Content
  order : Nat
  customDuration : Option Nat
  deriving DecidableEq, Repr

/-- The repeat field of a schedule: none, daily, weekly or monthly. -/
inductive Repeat where
  | rnone
  | daily
  | weekly
  | monthly
  deriving DecidableEq, Repr

/-- A schedule document, restricted to the fields resolution reads. -/
structure Schedule where
  id : Nat
  isActive : Bool
  startDate : SDate
  endDate : SDate
  startTime : HM
  endTime : HM
  timezone : String
  rep : Repeat
  weekDays : List Nat
  priority : Int
  createdAt : Nat
  updatedAt : Nat
  content : List ContentItem
  deriving DecidableEq, Repr

/-- Zone view: the current instant rendered in each named zone. -/
def ZV : Type := String → LocalNow

/-- HH:MM as minutes since midnight. -/
def timeToMinutes (t : HM) : Nat := t.hour * 60 + t.minute

/-- The overnight test of the source: endHour < startHour, or equal hours
and endMinute <= startMinute. -/
def overnightB (s : Schedule) : Bool :=
  decide (s.endTime.hour < s.startTime.hour ∨
    (s.endTime.hour = s.startTime.hour ∧ s.endTime.minute ≤ s.startTime.minute))

/-- The current instant as a minute count on the local day line. -/
def nowInstant (now : LocalNow) : Nat := now.day * 1440 + now.minutes

/-- todayStart of isCurrentlyActive: today's date at startTime. -/
def todayStartI (now : LocalNow) (s : Schedule) : Nat :=
  now.day * 1440 + timeToMinutes s.startTime

/-- todayEnd of isCurrentlyActive: today's date at endTime, plus one day
when the window is overnight. -/
def todayEndI (now : LocalNow) (s : Schedule) : Nat :=
  now.day * 1440 + timeToMinutes s.endTime + (if overnightB s then 1440 else 0)

/-- now.isBetween(todayStart, todayEnd, null, both-inclusive). -/
def windowCheckB (now : LocalNow) (s : Schedule) : Bool :=
  decide (todayStartI now s ≤ nowInstant now ∧ nowInstant now ≤ todayEndI now s)

/-- The calendar-date range gate: the YYYY-MM-DD string comparison
currentDate < startDate or currentDate > endDate, negated. -/
def dateGateB (now : LocalNow) (s : Schedule) : Bool :=
  decide (s.startDate.day ≤ now.day ∧ now.day ≤ s.endDate.day)

/-- this.timezone or the Asia/Kolkata default of the model file. -/
def schedZone (s : Schedule) : String :=
  if s.timezone = "" then "Asia/Kolkata" else s.timezone

/-- schedule.priority or 1: the JS or-default treats 0 as falsy. -/
def effPriority (s : Schedule) : Int :=
  if s.priority = 0 then 1 else s.priority

/-- content.filter(item ⇒ item.contentId): entries that populated. -/
def eligContent (s : Schedule) : List ContentItem :=
  s.content.filter (fun c => c.contentId.isSome)

namespace SModel

/-- Embedding of isCurrentlyActive from src/models/Schedule.js lines
182-251: isActive gate, date-range gate on the current date string, the
today-based time window with overnight wraparound, then the repeat
branches (weekly with a non-empty weekday list, daily, monthly, and the
fall-through for none). -/
def isCurrentlyActive (zv : ZV) (s : Schedule) : Bool :=
  if s.isActive = false then false
  else
    let now := zv (schedZone s)
    if dateGateB now s = false then false
    else
      let within := windowCheckB now s
      if s.rep = Repeat.weekly ∧ s.weekDays ≠ [] then
        within && s.weekDays.contains now.weekday
      else if s.rep = Repeat.daily then within
      else if s.rep = Repeat.monthly then
        within && decide (now.dayOfMonth = s.startDate.dayOfMonth)
      else within

end SModel

namespace P6

/-- Embedding of isCurrentlyActive from the alternate model revision
(src/unnamed/part_006 lines 202-289).  The date-range gate runs only for
repeat none; daily re-checks the date range in its own branch; weekly is
gated by weekday membership alone (empty weekday list means never); and
monthly is gated by day-of-month alone. -/
def isCurrentlyActive (zv : ZV) (s : Schedule) : Bool :=
  if s.isActive = false then false
  else
    let now := zv (schedZone s)
    if s.rep = Repeat.rnone ∧ dateGateB now s = false then false
    else
      let within := windowCheckB now s
      match s.rep with
      | Repeat.weekly =>
        if s.weekDays = [] then false
        else within && s.weekDays.contains now.weekday
      | Repeat.daily =>
        if dateGateB now s = false then false else within
      | Repeat.monthly =>
        if now.dayOfMonth ≠ s.startDate.dayOfMonth then false else within
      | Repeat.rnone => within

end P6

/-- The comparator of findCurrentlyActive, as a sort predicate: a may come
before b when the comparator b.priority - a.priority, with tie-break
b.createdAt - a.createdAt, is nonpositive. -/
def leSched (a b : Schedule) : Bool :=
  decide (b.priority < a.priority ∨
    (a.priority = b.priority ∧ b.createdAt ≤ a.createdAt))

/-- Insert an element into a list, before the first entry it may precede;
ties keep the existing entry behind the inserted one only when the
predicate allows, which makes the sort below stable. -/
def insertLe {α : Type} (le : α → α → Bool) (a : α) : List α → List α
  | [] => [a]
  | b :: l => if le a b then a :: b :: l else b :: insertLe le a l

/-- Stable insertion sort; the model of Array.sort with a comparator. -/
def sortLe {α : Type} (le : α → α → Bool) : List α → List α
  | [] => []
  | a :: l => insertLe le a (sortLe le l)

namespace SModel

/-- The survivor set built by the loop of findCurrentlyActive
(src/models/Schedule.js lines 360-378): schedules passing
isCurrentlyActive, with their content filtered to populated items,
kept only when that filtered list is non-empty. -/
def survivors (zv : ZV) (l : List Schedule) : List Schedule :=
  ((l.filter (fun s => isCurrentlyActive zv s)).map
    (fun s => { s with content := eligContent s })).filter
    (fun s => s.content ≠ [])

/-- Embedding of the static findCurrentlyActive (src/models/Schedule.js
lines 347-392): on a repository error the catch returns the empty list;
otherwise the survivors are sorted by priority descending, ties by
createdAt descending (Array.sort with the two-level comparator, a stable
sort). -/
def findCurrentlyActive (zv : ZV) (fetchRes : Except Unit (List Schedule)) :
    List Schedule :=
  match fetchRes with
  | Except.error _ => []
  | Except.ok schedules => sortLe leSched (survivors zv schedules)

end SModel

/-- A resolved payload: the content to play and the winning schedule id. -/
structure Payload where
  content : Content
  schedId : Nat
  deriving DecidableEq, Repr

/-- One fold step of the best-priority selection loop shared by the
monitor and the content service: an eligible schedule replaces the
current best when there is no best yet or its priority is strictly
greater than bestPriority. -/
def pickStep (elig : Schedule → Bool) (acc : Option Schedule × Int)
    (s : Schedule) : Option Schedule × Int :=
  if elig s then
    match acc with
    | (Option.none, _) => (some s, effPriority s)
    | (some b, bp) => if bp < effPriority s then (some s, effPriority s) else (some b, bp)
  else acc

/-- The selection loop with activeSchedule = null, bestPriority = 0. -/
def pickLoop (elig : Schedule → Bool) (l : List Schedule) :
    Option Schedule × Int :=
  l.foldl (pickStep elig) (Option.none, 0)

/-- The schedule the selection loop leaves in activeSchedule. -/
def pickBest (elig : Schedule → Bool) (l : List Schedule) : Option Schedule :=
  (pickLoop elig l).1

/-- validContent[0]?.contentId of the winning schedule: the first
populated item in stored array position. -/
def contentToPlay (s : Schedule) : Option Content :=
  ((eligContent s).head?).bind (fun item => item.contentId)

namespace Monitor

/-- The continue conditions of the loop in getCurrentActiveContent
(src/services/scheduleMonitor.js lines 113-128): non-empty content array,
non-empty populated content, and the model's isCurrentlyActive. -/
def monitorElig (zv : ZV) (s : Schedule) : Bool :=
  decide (s.content ≠ []) && decide (eligContent s ≠ []) &&
    SModel.isCurrentlyActive zv s

/-- Embedding of ScheduleMonitor.getCurrentActiveContent
(src/services/scheduleMonitor.js lines 94-155) applied to an
already-fetched snapshot: pick the best-priority eligible schedule and
return its first populated content item with the schedule identity. -/
def getCurrentActiveContent (zv : ZV) (schedules : List Schedule) :
    Option Payload :=
  if schedules = [] then Option.none
  else
    match pickBest (monitorElig zv) schedules with
    | Option.none => Option.none
    | some a =>
      match (eligContent a).head? with
      | Option.none => Option.none
      | some item => item.contentId.map (fun c => { content := c, schedId := a.id })

/-- The two pieces of monitor state: the per-schedule watermark map
lastCheckedSchedules and currentActiveSchedule (kept as its id). -/
structure MonitorState where
  lastChecked : List (Nat × Nat)
  currentActive : Option Nat
  deriving DecidableEq, Repr

/-- Events the monitor emits on a tick. -/
inductive Emit where
  | contentRefresh (p : Option Payload)
  | statusUpdate
  deriving DecidableEq, Repr

/-- Map.get on the watermark map. -/
def lookupW (m : List (Nat × Nat)) (k : Nat) : Option Nat :=
  (m.find? (fun p => p.1 = k)).map (fun p => p.2)

/-- Map.set on the watermark map. -/
def setW (m : List (Nat × Nat)) (k v : Nat) : List (Nat × Nat) :=
  (k, v) :: m.filter (fun p => p.1 ≠ k)

/-- One iteration of the watermark loop of checkScheduleChanges: a
schedule with no recorded watermark, or modified after it, marks
hasChanges and records currentTime. -/
def wmStep (currentTime : Nat) (acc : List (Nat × Nat) × Bool)
    (s : Schedule) : List (Nat × Nat) × Bool :=
  match lookupW acc.1 s.id with
  | Option.none => (setW acc.1 s.id currentTime, true)
  | some t => if t < s.updatedAt then (setW acc.1 s.id currentTime, true) else acc

/-- Embedding of ScheduleMonitor.checkScheduleChanges
(src/services/scheduleMonitor.js lines 30-92).  On a repository error the
catch leaves the state unchanged and emits nothing.  Otherwise: run the
watermark loop, resolve the current winner, and if its id differs from
currentActiveSchedule emit one content-refresh event (carrying the new
payload, or none as the explicit nothing-active signal) and store the new
winner; finally emit one status-update event when anything changed. -/
def checkScheduleChanges (zv : ZV) (st : MonitorState)
    (fetchRes : Except Unit (List Schedule)) (currentTime : Nat) :
    MonitorState × List Emit :=
  match fetchRes with
  | Except.error _ => (st, [])
  | Except.ok schedules =>
    let wm := schedules.foldl (wmStep currentTime) (st.lastChecked, false)
    let currentContent := getCurrentActiveContent zv schedules
    let newId := currentContent.map (fun p => p.schedId)
    let changed : Bool := decide (newId ≠ st.currentActive)
    let st' : MonitorState :=
      { lastChecked := wm.1
        currentActive := if changed then newId else st.currentActive }
    let emits1 := if changed then [Emit.contentRefresh currentContent] else []
    let emits2 := if wm.2 || changed then [Emit.statusUpdate] else []
    (st', emits1 ++ emits2)

/-- Recognizer for content-refresh events. -/
def isContentRefresh : Emit → Bool
  | Emit.contentRefresh _ => true
  | Emit.statusUpdate => false

end Monitor

namespace Controller

/-- The three shapes of the viewer-facing response: a content payload, an
explicit nothing-active success, or the 500 of the catch branch. -/
inductive ViewerResp where
  | payload (c : Content) (schedId : Nat)
  | nothingActive
  | serverError
  deriving DecidableEq, Repr

/-- Embedding of getCurrentScheduleForViewer
(src/controllers/scheduleController.js lines 444-541).  The audit-log
write is wrapped in its own try/catch, so its outcome cannot change the
response; findCurrentlyActive recovers repository errors to the empty
list, so the outer catch that would produce the 500 is never reached by
these modelled effects. -/
def getCurrentScheduleForViewer (zv : ZV)
    (fetchRes : Except Unit (List Schedule))
    (auditRes : Except Unit Unit) : ViewerResp :=
  match SModel.findCurrentlyActive zv fetchRes with
  | [] => ViewerResp.nothingActive
  | s :: _ =>
    match (eligContent s).head? with
    | Option.none => ViewerResp.nothingActive
    | some item =>
      match item.contentId with
      | Option.none => ViewerResp.nothingActive
      | some c =>
        match auditRes with
        | Except.error _ => ViewerResp.payload c s.id
        | Except.ok _ => ViewerResp.payload c s.id

/-- parseInt(req.body.priority) || 1: a missing or non-numeric priority
is none; a parsed 0 is falsy and also becomes the default. -/
def jsOrInt (o : Option Int) (d : Int) : Int :=
  match o with
  | Option.none => d
  | some v => if v = 0 then d else v

/-- Math.min(Math.max(parseInt(req.body.priority) || 1, 1), 10), the
priority normalization of createSchedule line 42 and updateSchedule
line 299. -/
def clampPriority (o : Option Int) : Int :=
  min (max (jsOrInt o 1) 1) 10

end Controller

namespace Routes

/-- The priority field of a schedule-create or schedule-update request
body as the route validator sees it: absent, an integer value, or a
value that is not an integer (a fractional or non-numeric string; any
such value fails isInt and, when it reaches parseInt at all, the
fields that parse differently are already rejected upstream). -/
inductive PriorityField where
  | missing
  | intVal (v : Int)
  | nonNumeric
  deriving DecidableEq, Repr

/-- The priority validator of src/routes/schedules.js line 16 (and the
part_001 revision): optional, so an absent field passes; a present field
must be an integer between 1 and 10. -/
def priorityValidationOk : PriorityField → Bool
  | PriorityField.missing => true
  | PriorityField.intVal v => decide (1 ≤ v ∧ v ≤ 10)
  | PriorityField.nonNumeric => false

/-- What parseInt(req.body.priority) yields in the controller for each
shape of the field: NaN (none) for an absent or non-numeric field, the
value itself for an integer field. -/
def parseIntOf : PriorityField → Option Int
  | PriorityField.missing => Option.none
  | PriorityField.intVal v => some v
  | PriorityField.nonNumeric => Option.none

/-- Outcome of a schedule-create or schedule-update request as far as the
stored priority is concerned: the 400 of handleValidationErrors, or the
controller runs and stores the clamped priority. -/
inductive RouteResult where
  | badRequest
  | stored (priority : Int)
  deriving DecidableEq, Repr

/-- The middleware chain of router.post and router.put in
src/routes/schedules.js: scheduleValidation then handleValidationErrors
(a 400 when any validator failed, the priority one included), then the
controller whose priority expression is clampPriority.  othersOk stands
for the outcome of the validators on the other body fields, which do not
read the priority field. -/
def mutationRoute (othersOk : Bool) (p : PriorityField) : RouteResult :=
  if othersOk = false ∨ priorityValidationOk p = false then RouteResult.badRequest
  else RouteResult.stored (Controller.clampPriority (parseIntOf p))

end Routes

namespace ContentService

/-- schedule.timezone or the UTC default of the content service. -/
def csZone (s : Schedule) : String :=
  if s.timezone = "" then "UTC" else s.timezone

/-- The time-range check of fetchCurrentContent (src/unnamed/part_003
lines 65-81, identically src/unnamed/part_002 lines 94-110): the range
runs from the stored startDate at startTime to the stored endDate at
endTime, plus one day on the overnight condition, inclusive ends. -/
def timeRangeCheck (zv : ZV) (s : Schedule) : Bool :=
  let now := zv (csZone s)
  decide (s.startDate.day * 1440 + timeToMinutes s.startTime ≤ nowInstant now ∧
    nowInstant now ≤ s.endDate.day * 1440 + timeToMinutes s.endTime +
      (if overnightB s then 1440 else 0))

/-- The date-range check of fetchCurrentContent: now between startDate
startOf day and endDate endOf day, inclusive. -/
def dateRangeCheck (zv : ZV) (s : Schedule) : Bool :=
  let now := zv (csZone s)
  decide (s.startDate.day ≤ now.day ∧ now.day ≤ s.endDate.day)

/-- The conditions under which the loop of fetchCurrentContent lets a
schedule compete: non-empty content, non-empty populated content, and
both range checks. -/
def csElig (zv : ZV) (s : Schedule) : Bool :=
  decide (s.content ≠ []) && decide (eligContent s ≠ []) &&
    (dateRangeCheck zv s && timeRangeCheck zv s)

/-- Embedding of ContentService.fetchCurrentContent (src/unnamed/part_003
lines 37-113): a repository error is rethrown; otherwise the
best-priority eligible schedule surfaces its first populated item. -/
def fetchCurrentContent (zv : ZV) (fetchRes : Except Unit (List Schedule)) :
    Except Unit (Option Payload) :=
  match fetchRes with
  | Except.error e => Except.error e
  | Except.ok schedules =>
    Except.ok (
      if schedules = [] then Option.none
      else
        match pickBest (csElig zv) schedules with
        | Option.none => Option.none
        | some a =>
          match (eligContent a).head? with
          | Option.none => Option.none
          | some item => item.contentId.map (fun c => { content := c, schedId := a.id }))

/-- Embedding of ContentService.getCurrentContent (src/unnamed/part_003
lines 15-35): a fresh cache entry is returned as is; otherwise the fetch
runs and its catch recovers any error to null. -/
def getCurrentContent (cacheFresh : Bool) (cached : Option Payload)
    (zv : ZV) (fetchRes : Except Unit (List Schedule)) : Option Payload :=
  if cacheFresh && cached.isSome then cached
  else
    match fetchCurrentContent zv fetchRes with
    | Except.error _ => Option.none
    | Except.ok c => c

end ContentService

/-- A fixed zone view rendering every zone as the same local instant;
used for concrete evaluations where a single zone is involved. -/
def zvAt (now : LocalNow) : ZV := fun _ => now

/-- Modelled from the spec: the winning content item the spec prescribes,
namely the first element of the populated content list ordered by the
order field ascending. -/
def specFirstByOrder (s : Schedule) : Option Content :=
  ((sortLe (fun a b => decide (a.order ≤ b.order)) (eligContent s)).head?).bind
    (fun item => item.contentId)

/-- Concrete content item A. -/
def cA : Content := ⟨1⟩

/-- Concrete content item B. -/
def cB : Content := ⟨2⟩

/-- 23:30 on local day 110 (a Wednesday, the 19th). -/
def now2330 : LocalNow := ⟨110, 3, 19, 1410⟩

/-- 01:30 on local day 110. -/
def now0130 : LocalNow := ⟨110, 3, 19, 90⟩

/-- 03:00 on local day 110. -/
def now0300 : LocalNow := ⟨110, 3, 19, 180⟩

/-- 12:30 on local day 110. -/
def nowMid : LocalNow := ⟨110, 3, 19, 750⟩

/-- 18:00 on local day 110. -/
def nowEve : LocalNow := ⟨110, 3, 19, 1080⟩

/-- 10:00 on local day 130, the 11th of its month. -/
def now11 : LocalNow := ⟨130, 2, 11, 600⟩

/-- A daily overnight schedule, 22:00 to 02:00, date range containing
day 110, active, with one approved content item. -/
def nightSched : Schedule :=
  { id := 1, isActive := true, startDate := ⟨100, 10⟩, endDate := ⟨120, 30⟩,
    startTime := ⟨22, 0⟩, endTime := ⟨2, 0⟩, timezone := "Asia/Kolkata",
    rep := Repeat.daily, weekDays := [], priority := 5, createdAt := 50,
    updatedAt := 60, content := [⟨some cA, 0, some 10⟩] }

/-- A daily 09:00-17:00 schedule whose date range covers days 100-120. -/
def daySched : Schedule :=
  { id := 2, isActive := true, startDate := ⟨100, 10⟩, endDate := ⟨120, 30⟩,
    startTime := ⟨9, 0⟩, endTime := ⟨17, 0⟩, timezone := "Asia/Kolkata",
    rep := Repeat.daily, weekDays := [], priority := 5, createdAt := 50,
    updatedAt := 60, content := [⟨some cA, 0, some 10⟩] }

/-- A weekly Monday/Wednesday schedule whose stored date range ended on
day 105, evaluated on day 110 (a Wednesday). -/
def wkSched : Schedule :=
  { id := 3, isActive := true, startDate := ⟨100, 10⟩, endDate := ⟨105, 15⟩,
    startTime := ⟨9, 0⟩, endTime := ⟨17, 0⟩, timezone := "Asia/Kolkata",
    rep := Repeat.weekly, weekDays := [1, 3], priority := 5, createdAt := 50,
    updatedAt := 60, content := [⟨some cA, 0, some 10⟩] }

/-- A monthly schedule anchored on the 11th whose stored date range ended
on day 105, evaluated on day 130 (an 11th). -/
def moSched : Schedule :=
  { id := 4, isActive := true, startDate := ⟨100, 11⟩, endDate := ⟨105, 16⟩,
    startTime := ⟨9, 0⟩, endTime := ⟨17, 0⟩, timezone := "Asia/Kolkata",
    rep := Repeat.monthly, weekDays := [], priority := 5, createdAt := 50,
    updatedAt := 60, content := [⟨some cA, 0, some 10⟩] }

/-- Priority-5 schedule created at time 100, listed first. -/
def sOld : Schedule :=
  { id := 10, isActive := true, startDate := ⟨100, 10⟩, endDate := ⟨120, 30⟩,
    startTime := ⟨9, 0⟩, endTime := ⟨17, 0⟩, timezone := "Asia/Kolkata",
    rep := Repeat.daily, weekDays := [], priority := 5, createdAt := 100,
    updatedAt := 100, content := [⟨some cA, 0, some 10⟩] }

/-- Priority-5 schedule created later, at time 200, listed second. -/
def sNew : Schedule :=
  { id := 20, isActive := true, startDate := ⟨100, 10⟩, endDate := ⟨120, 30⟩,
    startTime := ⟨9, 0⟩, endTime := ⟨17, 0⟩, timezone := "Asia/Kolkata",
    rep := Repeat.daily, weekDays := [], priority := 5, createdAt := 200,
    updatedAt := 200, content := [⟨some cB, 0, some 10⟩] }

/-- Priority-8 schedule created at time 150. -/
def sHigh : Schedule :=
  { id := 30, isActive := true, startDate := ⟨100, 10⟩, endDate := ⟨120, 30⟩,
    startTime := ⟨9, 0⟩, endTime := ⟨17, 0⟩, timezone := "Asia/Kolkata",
    rep := Repeat.daily, weekDays := [], priority := 8, createdAt := 150,
    updatedAt := 150, content := [⟨some cB, 0, some 10⟩] }

/-- An eligible schedule whose stored content array lists the order-5
item before the order-1 item. -/
def ordSched : Schedule :=
  { id := 7, isActive := true, startDate := ⟨100, 10⟩, endDate := ⟨120, 30⟩,
    startTime := ⟨9, 0⟩, endTime := ⟨17, 0⟩, timezone := "Asia/Kolkata",
    rep := Repeat.daily, weekDays := [], priority := 5, createdAt := 50,
    updatedAt := 60, content := [⟨some cA, 5, some 10⟩, ⟨some cB, 1, some 10⟩] }

/-- A monitor state that already knows schedule 10 as the winner and has
watermark 100 recorded for it. -/
def st0 : Monitor.MonitorState := ⟨[(10, 100)], some 10⟩

theorem leSched_refl (a : Schedule) : leSched a a = true := by
  simp [leSched]

theorem leSched_trans (a b c : Schedule) (h1 : leSched a b = true)
    (h2 : leSched b c = true) : leSched a c = true := by
  simp only [leSched, decide_eq_true_eq] at h1 h2 ⊢
  omega

theorem leSched_total (a b : Schedule) : (leSched a b || leSched b a) = true := by
  simp only [leSched, Bool.or_eq_true, decide_eq_true_eq]
  omega

theorem mem_insertLe {α : Type} (le : α → α → Bool) (a x : α) :
    ∀ (l : List α), x ∈ insertLe le a l ↔ x = a ∨ x ∈ l := by
  intro l
  induction l with
  | nil => simp [insertLe]
  | cons b l ih =>
    by_cases h : le a b = true
    · simp [insertLe, h]
    · have h' : le a b = false := by
        cases hh : le a b
        · rfl
        · exact absurd hh h
      simp only [insertLe, h', Bool.false_eq_true, if_false, List.mem_cons, ih]
      tauto

theorem pairwise_insertLe {α : Type} (le : α → α → Bool)
    (htot : ∀ a b, (le a b || le b a) = true)
    (htrans : ∀ a b c, le a b = true → le b c = true → le a c = true)
    (a : α) :
    ∀ (l : List α), l.Pairwise (fun x y => le x y = true) →
      (insertLe le a l).Pairwise (fun x y => le x y = true) := by
  intro l
  induction l with
  | nil =>
    intro _
    simp [insertLe]
  | cons b l ih =>
    intro hp
    obtain ⟨hb, hl⟩ := List.pairwise_cons.mp hp
    by_cases h : le a b = true
    · simp only [insertLe, h, if_true]
      refine List.pairwise_cons.mpr ⟨?_, hp⟩
      intro y hy
      rcases List.mem_cons.mp hy with rfl | hy'
      · exact h
      · exact htrans a b y h (hb y hy')
    · have h' : le a b = false := by
        cases hh : le a b
        · rfl
        · exact absurd hh h
      have hba : le b a = true := by
        have := htot a b
        rw [h'] at this
        simpa using this
      simp only [insertLe, h', Bool.false_eq_true, if_false]
      refine List.pairwise_cons.mpr ⟨?_, ih hl⟩
      intro y hy
      rcases (mem_insertLe le a y l).mp hy with rfl | hy'
      · exact hba
      · exact hb y hy'

theorem pairwise_sortLe {α : Type} (le : α → α → Bool)
    (htot : ∀ a b, (le a b || le b a) = true)
    (htrans : ∀ a b c, le a b = true → le b c = true → le a c = true) :
    ∀ (l : List α), (sortLe le l).Pairwise (fun x y => le x y = true) := by
  intro l
  induction l with
  | nil => simp [sortLe]
  | cons a l ih => exact pairwise_insertLe le htot htrans a (sortLe le l) ih

theorem mem_sortLe {α : Type} (le : α → α → Bool) (x : α) :
    ∀ (l : List α), x ∈ sortLe le l ↔ x ∈ l := by
  intro l
  induction l with
  | nil => simp [sortLe]
  | cons a l ih =>
    simp only [sortLe, mem_insertLe, List.mem_cons, ih]

theorem sortLe_head_dominates {α : Type} (le : α → α → Bool)
    (htot : ∀ a b, (le a b || le b a) = true)
    (htrans : ∀ a b c, le a b = true → le b c = true → le a c = true)
    (l rest : List α) (s : α) (h : sortLe le l = s :: rest) :
    ∀ t, t ∈ l → le s t = true := by
  intro t ht
  have hmem : t ∈ s :: rest := by
    rw [← h]
    exact (mem_sortLe le t l).mpr ht
  rcases List.mem_cons.mp hmem with rfl | ht'
  · have := htot t t
    simpa using this
  · have hp := pairwise_sortLe le htot htrans l
    rw [h] at hp
    exact (List.pairwise_cons.mp hp).1 t ht'

theorem pickFold_spec (elig : Schedule → Bool) :
    ∀ (l : List Schedule) (acc : Option Schedule × Int),
    (∀ b, acc.1 = some b → acc.2 = effPriority b ∧ elig b = true) →
    ((∀ b, (l.foldl (pickStep elig) acc).1 = some b →
        (l.foldl (pickStep elig) acc).2 = effPriority b ∧ elig b = true ∧
        (acc.1 = some b ∨ b ∈ l)) ∧
     (∀ t, t ∈ l → elig t = true →
        effPriority t ≤ (l.foldl (pickStep elig) acc).2 ∧
        (l.foldl (pickStep elig) acc).1 ≠ Option.none) ∧
     (∀ b, acc.1 = some b →
        acc.2 ≤ (l.foldl (pickStep elig) acc).2 ∧
        (l.foldl (pickStep elig) acc).1 ≠ Option.none)) := by
  intro l
  induction l with
  | nil =>
    intro acc hacc
    refine ⟨?_, ?_, ?_⟩
    · intro b hb
      obtain ⟨h1, h2⟩ := hacc b hb
      exact ⟨h1, h2, Or.inl hb⟩
    · intro t ht
      simp at ht
    · intro b hb
      simp only [List.foldl_nil]
      exact ⟨le_refl _, by simp [hb]⟩
  | cons s l ih =>
    intro acc hacc
    obtain ⟨a1, a2⟩ := acc
    by_cases he : elig s = true
    · rcases a1 with _ | b0
      · have hstep : pickStep elig (Option.none, a2) s = (some s, effPriority s) := by
          simp [pickStep, he]
        have hacc' : ∀ b, (some s, effPriority s).1 = some b →
            (some s, effPriority s).2 = effPriority b ∧ elig b = true := by
          intro b hb
          simp only [Option.some.injEq] at hb
          subst hb
          exact ⟨rfl, he⟩
        obtain ⟨ih1, ih2, ih3⟩ := ih (some s, effPriority s) hacc'
        refine ⟨?_, ?_, ?_⟩
        · intro b hb
          rw [List.foldl_cons, hstep] at hb
          obtain ⟨g1, g2, g3⟩ := ih1 b hb
          rw [List.foldl_cons, hstep]
          refine ⟨g1, g2, Or.inr ?_⟩
          rcases g3 with g3 | g3
          · simp only [Option.some.injEq] at g3
            subst g3
            exact List.mem_cons_self s l
          · exact List.mem_cons_of_mem s g3
        · intro t ht hte
          rw [List.foldl_cons, hstep]
          rcases List.mem_cons.mp ht with rfl | ht'
          · obtain ⟨g1, g2⟩ := ih3 t rfl
            exact ⟨g1, g2⟩
          · exact ih2 t ht' hte
        · intro b hb
          simp at hb
      · obtain ⟨hb0p, hb0e⟩ := hacc b0 rfl
        by_cases hlt : a2 < effPriority s
        · have hstep : pickStep elig (some b0, a2) s = (some s, effPriority s) := by
            simp [pickStep, he, hlt]
          have hacc' : ∀ b, (some s, effPriority s).1 = some b →
              (some s, effPriority s).2 = effPriority b ∧ elig b = true := by
            intro b hb
            simp only [Option.some.injEq] at hb
            subst hb
            exact ⟨rfl, he⟩
          obtain ⟨ih1, ih2, ih3⟩ := ih (some s, effPriority s) hacc'
          refine ⟨?_, ?_, ?_⟩
          · intro b hb
            rw [List.foldl_cons, hstep] at hb
            obtain ⟨g1, g2, g3⟩ := ih1 b hb
            rw [List.foldl_cons, hstep]
            refine ⟨g1, g2, Or.inr ?_⟩
            rcases g3 with g3 | g3
            · simp only [Option.some.injEq] at g3
              subst g3
              exact List.mem_cons_self s l
            · exact List.mem_cons_of_mem s g3
          · intro t ht hte
            rw [List.foldl_cons, hstep]
            rcases List.mem_cons.mp ht with rfl | ht'
            · obtain ⟨g1, g2⟩ := ih3 t rfl
              exact ⟨g1, g2⟩
            · exact ih2 t ht' hte
          · intro b hb
            simp only [Option.some.injEq] at hb
            subst hb
            rw [List.foldl_cons, hstep]
            obtain ⟨g1, g2⟩ := ih3 s rfl
            exact ⟨le_trans (le_of_lt hlt) g1, g2⟩
        · have hstep : pickStep elig (some b0, a2) s = (some b0, a2) := by
            simp [pickStep, he, hlt]
          have hacc' : ∀ b, ((some b0 : Option Schedule), a2).1 = some b →
              ((some b0 : Option Schedule), a2).2 = effPriority b ∧ elig b = true := hacc
          obtain ⟨ih1, ih2, ih3⟩ := ih (some b0, a2) hacc'
          refine ⟨?_, ?_, ?_⟩
          · intro b hb
            rw [List.foldl_cons, hstep] at hb
            obtain ⟨g1, g2, g3⟩ := ih1 b hb
            rw [List.foldl_cons, hstep]
            refine ⟨g1, g2, ?_⟩
            rcases g3 with g3 | g3
            · exact Or.inl g3
            · exact Or.inr (List.mem_cons_of_mem s g3)
          · intro t ht hte
            rw [List.foldl_cons, hstep]
            rcases List.mem_cons.mp ht with rfl | ht'
            · obtain ⟨g1, g2⟩ := ih3 b0 rfl
              refine ⟨le_trans ?_ g1, g2⟩
              omega
            · exact ih2 t ht' hte
          · intro b hb
            rw [List.foldl_cons, hstep]
            exact ih3 b hb
    · have he' : elig s = false := by
        cases h : elig s
        · rfl
        · exact absurd h he
      have hstep : pickStep elig (a1, a2) s = (a1, a2) := by
        simp [pickStep, he']
      obtain ⟨ih1, ih2, ih3⟩ := ih (a1, a2) hacc
      refine ⟨?_, ?_, ?_⟩
      · intro b hb
        rw [List.foldl_cons, hstep] at hb
        obtain ⟨g1, g2, g3⟩ := ih1 b hb
        rw [List.foldl_cons, hstep]
        refine ⟨g1, g2, ?_⟩
        rcases g3 with g3 | g3
        · exact Or.inl g3
        · exact Or.inr (List.mem_cons_of_mem s g3)
      · intro t ht hte
        rw [List.foldl_cons, hstep]
        rcases List.mem_cons.mp ht with rfl | ht'
        · rw [hte] at he'
          cases he'
        · exact ih2 t ht' hte
      · intro b hb
        rw [List.foldl_cons, hstep]
        exact ih3 b hb

theorem pickBest_spec (elig : Schedule → Bool) (l : List Schedule)
    (s : Schedule) (h : pickBest elig l = some s) :
    s ∈ l ∧ elig s = true ∧
      ∀ t, t ∈ l → elig t = true → effPriority t ≤ effPriority s := by
  have hacc : ∀ b, (Option.none (α := Schedule), (0 : Int)).1 = some b →
      (Option.none (α := Schedule), (0 : Int)).2 = effPriority b ∧ elig b = true := by
    intro b hb
    cases hb
  obtain ⟨h1, h2, _⟩ := pickFold_spec elig l (Option.none, 0) hacc
  have hres := h1 s h
  obtain ⟨hp, helig, hmem⟩ := hres
  refine ⟨?_, helig, ?_⟩
  · rcases hmem with hm | hm
    · cases hm
    · exact hm
  · intro t ht hte
    obtain ⟨g1, _⟩ := h2 t ht hte
    rw [hp] at g1
    exact g1

theorem wmFold_unchanged (ct : Nat) :
    ∀ (l : List Schedule) (m : List (Nat × Nat)) (b : Bool),
    (∀ s, s ∈ l → ∃ t, Monitor.lookupW m s.id = some t ∧ s.updatedAt ≤ t) →
    l.foldl (Monitor.wmStep ct) (m, b) = (m, b) := by
  intro l
  induction l with
  | nil =>
    intro m b _
    rfl
  | cons s l ih =>
    intro m b h
    obtain ⟨t, hl, hle⟩ := h s (List.mem_cons_self s l)
    have hstep : Monitor.wmStep ct (m, b) s = (m, b) := by
      simp only [Monitor.wmStep, hl]
      rw [if_neg (by omega)]
    rw [List.foldl_cons, hstep]
    exact ih m b (fun s' hs' => h s' (List.mem_cons_of_mem s hs'))

/-- C1 counterexample: a daily overnight 22:00-02:00 schedule whose other
gates all pass on day 110 is NOT active at 01:30 local time in either
model revision, because both build the window from today's 22:00 onward
and never look back at the window that started on the previous day; the
claim asserts it is active then. -/
theorem C1_counterexample :
    nightSched.isActive = true ∧
    nightSched.rep = Repeat.daily ∧
    dateGateB now0130 nightSched = true ∧
    eligContent nightSched ≠ [] ∧
    windowCheckB now0130 nightSched = false ∧
    SModel.isCurrentlyActive (zvAt now0130) nightSched = false ∧
    P6.isCurrentlyActive (zvAt now0130) nightSched = false := by
  refine ⟨rfl, rfl, by decide, by decide, by decide, by decide, by decide⟩

/-- C1 (amended): for a schedule with startTime 22:00 and endTime 02:00
the overnight test fires, todayEnd is today's end time plus one day, and
membership is inclusive at the start; the window check is true at 23:30
and at 22:00 sharp, but false at 01:30 and at 03:00 local time (the tail
of the window begun the previous day is not recognized).  In general the
window counts as overnight exactly when endTime is lexicographically at
most startTime. -/
theorem C1_overnight_window (s : Schedule) (now : LocalNow)
    (hs : s.startTime = ⟨22, 0⟩) (he : s.endTime = ⟨2, 0⟩) :
    overnightB s = true ∧
    todayEndI now s = now.day * 1440 + timeToMinutes s.endTime + 1440 ∧
    windowCheckB { now with minutes := 1410 } s = true ∧
    windowCheckB { now with minutes := 1320 } s = true ∧
    windowCheckB { now with minutes := 90 } s = false ∧
    windowCheckB { now with minutes := 180 } s = false ∧
    (∀ u : Schedule, u.startTime.minute < 60 → u.endTime.minute < 60 →
      (overnightB u = true ↔ timeToMinutes u.endTime ≤ timeToMinutes u.startTime)) := by
  have hov : overnightB s = true := by
    simp only [overnightB, hs, he, decide_eq_true_eq]
    omega
  refine ⟨hov, ?_, ?_, ?_, ?_, ?_, ?_⟩
  · simp [todayEndI, hov]
  · simp only [windowCheckB, todayStartI, todayEndI, nowInstant, hov, hs, he,
      timeToMinutes, decide_eq_true_eq, if_true]
    omega
  · simp only [windowCheckB, todayStartI, todayEndI, nowInstant, hov, hs, he,
      timeToMinutes, decide_eq_true_eq, if_true]
    omega
  · simp only [windowCheckB, todayStartI, todayEndI, nowInstant, hov, hs, he,
      timeToMinutes, decide_eq_false_iff_not, if_true]
    omega
  · simp only [windowCheckB, todayStartI, todayEndI, nowInstant, hov, hs, he,
      timeToMinutes, decide_eq_false_iff_not, if_true]
    omega
  · intro u h1 h2
    simp only [overnightB, timeToMinutes, decide_eq_true_eq]
    omega

/-- The overnight claim theorem applied to the concrete night schedule. -/
theorem C1_witness :
    windowCheckB now2330 nightSched = true ∧
    windowCheckB now0130 nightSched = false := by
  have h := C1_overnight_window nightSched now2330 rfl rfl
  exact ⟨h.2.2.1, h.2.2.2.2.1⟩

/-- C2 counterexample: for the daily 09:00-17:00 schedule at 18:00 on an
in-range day, the content-service time check accepts (its window spans
from the stored start date at 09:00 to the stored end date at 17:00)
while the today-based window check of the model rejects, so the cited
content-service code does evaluate the window against datetimes built
from the stored startDate and endDate. -/
theorem C2_counterexample :
    ContentService.timeRangeCheck (zvAt nowEve) daySched = true ∧
    ContentService.dateRangeCheck (zvAt nowEve) daySched = true ∧
    windowCheckB nowEve daySched = false ∧
    SModel.isCurrentlyActive (zvAt nowEve) daySched = false ∧
    ContentService.timeRangeCheck (zvAt nowEve) daySched ≠ windowCheckB nowEve daySched := by
  refine ⟨by decide, by decide, by decide, by decide, by decide⟩

/-- C2 (amended): in the Schedule model, the today-based window check
reads no stored date field, and for daily schedules isCurrentlyActive is
exactly the conjunction of the isActive flag, the separate calendar-date
gate, and the today-based window; but in the content-service revision
the time check is built from the stored startDate and endDate and
disagrees with the today-based window at the concrete 18:00 instant. -/
theorem C2_today_window (s : Schedule) (zv : ZV) (d1 d2 : SDate)
    (hrep : s.rep = Repeat.daily) :
    (windowCheckB (zv (schedZone s)) { s with startDate := d1, endDate := d2 } =
      windowCheckB (zv (schedZone s)) s) ∧
    (SModel.isCurrentlyActive zv s =
      (s.isActive && (dateGateB (zv (schedZone s)) s && windowCheckB (zv (schedZone s)) s))) ∧
    ContentService.timeRangeCheck (zvAt nowEve) daySched ≠ windowCheckB nowEve daySched := by
  refine ⟨rfl, ?_, by decide⟩
  cases hA : s.isActive with
  | false => simp [SModel.isCurrentlyActive, hA]
  | true =>
    cases hD : dateGateB (zv (schedZone s)) s with
    | false => simp [SModel.isCurrentlyActive, hA, hD]
    | true => simp [SModel.isCurrentlyActive, hA, hD, hrep]

/-- The amended daily-window decomposition applied to the concrete daily
schedule at 12:30. -/
theorem C2_witness :
    SModel.isCurrentlyActive (zvAt nowMid) daySched =
      (daySched.isActive && (dateGateB (zvAt nowMid (schedZone daySched)) daySched &&
        windowCheckB (zvAt nowMid (schedZone daySched)) daySched)) :=
  (C2_today_window daySched (zvAt nowMid) ⟨0, 1⟩ ⟨999, 9⟩ rfl).2.1

/-- C3 counterexample: an active weekly Monday/Wednesday schedule, on a
Wednesday inside its time window, is rejected by the Schedule model
because the current day falls after its stored end date: the calendar
date range does gate weekly schedules there, contrary to the claim. -/
theorem C3_counterexample :
    wkSched.rep = Repeat.weekly ∧
    wkSched.isActive = true ∧
    wkSched.weekDays.contains nowMid.weekday = true ∧
    windowCheckB nowMid wkSched = true ∧
    eligContent wkSched ≠ [] ∧
    SModel.isCurrentlyActive (zvAt nowMid) wkSched = false := by
  refine ⟨rfl, rfl, by decide, by decide, by decide, by decide⟩

/-- C3 (amended): for weekly schedules with a non-empty weekday set, the
part_006 revision is date-range-free: its activity test is exactly the
isActive flag, the today window and weekday membership, and is invariant
under changes of the stored date range; the Schedule model additionally
conjoins the calendar-date gate. -/
theorem C3_weekly (s : Schedule) (zv : ZV) (d1 d2 : SDate)
    (hrep : s.rep = Repeat.weekly) (hwd : s.weekDays ≠ []) :
    (P6.isCurrentlyActive zv { s with startDate := d1, endDate := d2 } =
      P6.isCurrentlyActive zv s) ∧
    (P6.isCurrentlyActive zv s =
      (s.isActive && (windowCheckB (zv (schedZone s)) s &&
        s.weekDays.contains (zv (schedZone s)).weekday))) ∧
    (SModel.isCurrentlyActive zv s =
      (s.isActive && (dateGateB (zv (schedZone s)) s &&
        (windowCheckB (zv (schedZone s)) s &&
          s.weekDays.contains (zv (schedZone s)).weekday)))) := by
  have key : ∀ u : Schedule, u.rep = Repeat.weekly → u.weekDays ≠ [] →
      P6.isCurrentlyActive zv u =
        (u.isActive && (windowCheckB (zv (schedZone u)) u &&
          u.weekDays.contains (zv (schedZone u)).weekday)) := by
    intro u hr hw
    cases hA : u.isActive with
    | false => simp [P6.isCurrentlyActive, hA]
    | true => simp [P6.isCurrentlyActive, hA, hr, hw]
  refine ⟨?_, key s hrep hwd, ?_⟩
  · rw [key { s with startDate := d1, endDate := d2 } hrep hwd, key s hrep hwd]
    rfl
  · cases hA : s.isActive with
    | false => simp [SModel.isCurrentlyActive, hA]
    | true =>
      cases hD : dateGateB (zv (schedZone s)) s with
      | false => simp [SModel.isCurrentlyActive, hA, hD]
      | true => simp [SModel.isCurrentlyActive, hA, hD, hrep, hwd]

/-- The amended weekly characterization applied to the concrete weekly
schedule at Wednesday 12:30. -/
theorem C3_witness :
    P6.isCurrentlyActive (zvAt nowMid) wkSched =
      (wkSched.isActive && (windowCheckB (zvAt nowMid (schedZone wkSched)) wkSched &&
        wkSched.weekDays.contains (zvAt nowMid (schedZone wkSched)).weekday)) :=
  (C3_weekly wkSched (zvAt nowMid) ⟨0, 1⟩ ⟨999, 9⟩ rfl (by decide)).2.1

/-- C4 counterexample: two eligible schedules of equal priority 5, the
earlier-created one listed first; the monitor selection loop keeps the
first-listed, earlier-created schedule, so the most-recently-created
survivor does not win there as the claim states. -/
theorem C4_counterexample :
    Monitor.monitorElig (zvAt nowMid) sOld = true ∧
    Monitor.monitorElig (zvAt nowMid) sNew = true ∧
    effPriority sOld = effPriority sNew ∧
    sOld.createdAt < sNew.createdAt ∧
    pickBest (Monitor.monitorElig (zvAt nowMid)) [sOld, sNew] = some sOld ∧
    Monitor.getCurrentActiveContent (zvAt nowMid) [sOld, sNew] =
      some { content := cA, schedId := 10 } := by
  refine ⟨by decide, by decide, by decide, by decide, by decide, by decide⟩

/-- C4 (amended): the sorted resolution of findCurrentlyActive always
places at the head a survivor whose priority strictly dominates every
other survivor or ties it with a creation time at least as recent; the
monitor selection loop also always picks a maximal-priority eligible
schedule, but on ties it keeps the earliest-listed one; with survivors
of priority 5 and 8 both mechanisms deterministically pick the
priority-8 schedule. -/
theorem C4_priority_resolution (zv : ZV) (l rest : List Schedule) (s : Schedule)
    (h : SModel.findCurrentlyActive zv (Except.ok l) = s :: rest) :
    (∀ t, t ∈ SModel.survivors zv l →
      t.priority < s.priority ∨ (t.priority = s.priority ∧ t.createdAt ≤ s.createdAt)) ∧
    (∀ (m : List Schedule) (w : Schedule),
      pickBest (Monitor.monitorElig zv) m = some w →
      ∀ t, t ∈ m → Monitor.monitorElig zv t = true → effPriority t ≤ effPriority w) ∧
    ((SModel.findCurrentlyActive (zvAt nowMid) (Except.ok [sOld, sHigh])).head?.map
        (fun u => u.id) = some 30 ∧
      pickBest (Monitor.monitorElig (zvAt nowMid)) [sOld, sHigh] = some sHigh) := by
  refine ⟨?_, ?_, by decide, by decide⟩
  · intro t ht
    have h' : sortLe leSched (SModel.survivors zv l) = s :: rest := h
    have hd := sortLe_head_dominates leSched leSched_total leSched_trans
      (SModel.survivors zv l) rest s h' t ht
    simp only [leSched, decide_eq_true_eq] at hd
    omega
  · intro m w hw t ht hte
    obtain ⟨_, _, hmax⟩ := pickBest_spec (Monitor.monitorElig zv) m w hw
    exact hmax t ht hte

/-- The amended resolution theorem applied to the concrete priority-5 and
priority-8 pair. -/
theorem C4_witness : effPriority sOld ≤ effPriority sHigh := by
  have h := C4_priority_resolution (zvAt nowMid) [sOld, sHigh]
    [{ sOld with content := eligContent sOld }]
    { sHigh with content := eligContent sHigh } (by decide)
  exact h.2.1 [sOld, sHigh] sHigh (by decide) sOld (by decide) (by decide)

/-- C5 counterexample: for a winning schedule whose stored content array
lists the order-5 item before the order-1 item, the viewer query returns
the order-5 item in stored array position, not the first item ordered by
the order field ascending. -/
theorem C5_counterexample :
    Controller.getCurrentScheduleForViewer (zvAt nowMid)
      (Except.ok [ordSched]) (Except.ok ()) = Controller.ViewerResp.payload cA 7 ∧
    contentToPlay ordSched = some cA ∧
    specFirstByOrder ordSched = some cB ∧
    cA ≠ cB := by
  refine ⟨by decide, by decide, by decide, by decide⟩

/-- C5 (amended): for every winning schedule, both the viewer query and
the monitor surface the first POPULATED element of the content list in
stored array position (validContent[0]); no ordering by the order field
is applied. -/
theorem C5_first_content (zv : ZV) (fr : Except Unit (List Schedule))
    (ar : Except Unit Unit) (s : Schedule) (rest : List Schedule)
    (h : SModel.findCurrentlyActive zv fr = s :: rest) :
    (Controller.getCurrentScheduleForViewer zv fr ar =
      match contentToPlay s with
      | some c => Controller.ViewerResp.payload c s.id
      | Option.none => Controller.ViewerResp.nothingActive) ∧
    (∀ (m : List Schedule) (a : Schedule), m ≠ [] →
      pickBest (Monitor.monitorElig zv) m = some a →
      Monitor.getCurrentActiveContent zv m =
        (contentToPlay a).map (fun c => { content := c, schedId := a.id })) := by
  constructor
  · unfold Controller.getCurrentScheduleForViewer
    rw [h]
    unfold contentToPlay
    cases hh : (eligContent s).head? with
    | none => simp [hh]
    | some item =>
      cases hc : item.contentId with
      | none => simp [hh, hc]
      | some c => cases ar <;> simp [hh, hc]
  · intro m a hm ha
    unfold Monitor.getCurrentActiveContent
    rw [if_neg hm, ha]
    unfold contentToPlay
    cases hh : (eligContent a).head? with
    | none => simp [hh]
    | some item => simp [hh]

/-- The amended first-content theorem applied to the concrete winning
schedule with out-of-order content. -/
theorem C5_witness :
    Controller.getCurrentScheduleForViewer (zvAt nowMid)
      (Except.ok [ordSched]) (Except.ok ()) = Controller.ViewerResp.payload cA 7 := by
  have h := (C5_first_content (zvAt nowMid) (Except.ok [ordSched]) (Except.ok ())
    { ordSched with content := eligContent ordSched } [] (by decide)).1
  exact h.trans (by decide)

/-- C6 counterexample: an active monthly schedule anchored on the 11th,
on an 11th inside its time window, is rejected by the Schedule model
because the current day falls after its stored end date: date-range
gating is applied to monthly schedules there, contrary to the claim. -/
theorem C6_counterexample :
    moSched.rep = Repeat.monthly ∧
    moSched.isActive = true ∧
    now11.dayOfMonth = moSched.startDate.dayOfMonth ∧
    windowCheckB now11 moSched = true ∧
    eligContent moSched ≠ [] ∧
    SModel.isCurrentlyActive (zvAt now11) moSched = false := by
  refine ⟨rfl, rfl, by decide, by decide, by decide, by decide⟩

/-- C6 (amended): for monthly schedules the part_006 revision tests only
the isActive flag, the today window and the day-of-month match (and is
invariant under changes of the stored end date), while the Schedule
model additionally conjoins the calendar-date gate. -/
theorem C6_monthly (s : Schedule) (zv : ZV) (d : SDate)
    (hrep : s.rep = Repeat.monthly) :
    (P6.isCurrentlyActive zv s =
      (s.isActive && (windowCheckB (zv (schedZone s)) s &&
        decide ((zv (schedZone s)).dayOfMonth = s.startDate.dayOfMonth)))) ∧
    (P6.isCurrentlyActive zv { s with endDate := d } = P6.isCurrentlyActive zv s) ∧
    (SModel.isCurrentlyActive zv s =
      (s.isActive && (dateGateB (zv (schedZone s)) s &&
        (windowCheckB (zv (schedZone s)) s &&
          decide ((zv (schedZone s)).dayOfMonth = s.startDate.dayOfMonth))))) := by
  have key : ∀ u : Schedule, u.rep = Repeat.monthly →
      P6.isCurrentlyActive zv u =
        (u.isActive && (windowCheckB (zv (schedZone u)) u &&
          decide ((zv (schedZone u)).dayOfMonth = u.startDate.dayOfMonth))) := by
    intro u hr
    cases hA : u.isActive with
    | false => simp [P6.isCurrentlyActive, hA]
    | true =>
      by_cases hdm : (zv (schedZone u)).dayOfMonth = u.startDate.dayOfMonth
      · simp [P6.isCurrentlyActive, hA, hr, hdm]
      · simp [P6.isCurrentlyActive, hA, hr, hdm]
  refine ⟨key s hrep, ?_, ?_⟩
  · rw [key { s with endDate := d } hrep, key s hrep]
    rfl
  · cases hA : s.isActive with
    | false => simp [SModel.isCurrentlyActive, hA]
    | true =>
      cases hD : dateGateB (zv (schedZone s)) s with
      | false => simp [SModel.isCurrentlyActive, hA, hD]
      | true => simp [SModel.isCurrentlyActive, hA, hD, hrep]

/-- The amended monthly characterization applied to the concrete monthly
schedule on an 11th. -/
theorem C6_witness :
    P6.isCurrentlyActive (zvAt now11) moSched =
      (moSched.isActive && (windowCheckB (zvAt now11 (schedZone moSched)) moSched &&
        decide ((zvAt now11 (schedZone moSched)).dayOfMonth = moSched.startDate.dayOfMonth))) :=
  (C6_monthly moSched (zvAt now11) ⟨999, 9⟩ rfl).1

/-- C7: the viewer-facing query always answers with a content payload or
the explicit nothing-active response, never the error response, for every
zone view, repository outcome and audit outcome; a repository error in
particular is recovered to nothing-active, and in the content-service
revision a failing fetch past the cache is recovered to null. -/
theorem C7_no_error_result :
    (∀ (zv : ZV) (fr : Except Unit (List Schedule)) (ar : Except Unit Unit),
      Controller.getCurrentScheduleForViewer zv fr ar = Controller.ViewerResp.nothingActive ∨
      ∃ c i, Controller.getCurrentScheduleForViewer zv fr ar =
        Controller.ViewerResp.payload c i) ∧
    (∀ (zv : ZV) (ar : Except Unit Unit),
      Controller.getCurrentScheduleForViewer zv (Except.error ()) ar =
        Controller.ViewerResp.nothingActive) ∧
    (∀ (cached : Option Payload) (zv : ZV) (fresh : Bool),
      ContentService.getCurrentContent fresh cached zv (Except.error ()) =
        (if fresh && cached.isSome then cached else Option.none)) := by
  refine ⟨?_, ?_, ?_⟩
  · intro zv fr ar
    unfold Controller.getCurrentScheduleForViewer
    cases h : SModel.findCurrentlyActive zv fr with
    | nil => exact Or.inl rfl
    | cons s rest =>
      cases hh : (eligContent s).head? with
      | none => exact Or.inl (by simp [hh])
      | some item =>
        cases hc : item.contentId with
        | none => exact Or.inl (by simp [hh, hc])
        | some c =>
          cases ar with
          | error e => exact Or.inr ⟨c, s.id, by simp [hh, hc]⟩
          | ok u => exact Or.inr ⟨c, s.id, by simp [hh, hc]⟩
  · intro zv ar
    rfl
  · intro cached zv fresh
    cases hc : fresh && cached.isSome with
    | true => simp [ContentService.getCurrentContent, hc]
    | false => simp [ContentService.getCurrentContent, ContentService.fetchCurrentContent, hc]

/-- C8: a monitor tick on which every schedule is at or below its
recorded watermark and the resolved winner id equals the stored one
leaves the state unchanged and emits nothing; a tick on which the winner
id differs from the stored one emits exactly one content-refresh event
and stores the new winner id. -/
theorem C8_monitor_suppression (zv : ZV) (st : Monitor.MonitorState)
    (schedules : List Schedule) (ct : Nat) :
    ((∀ s, s ∈ schedules →
        ∃ t, Monitor.lookupW st.lastChecked s.id = some t ∧ s.updatedAt ≤ t) →
      (Monitor.getCurrentActiveContent zv schedules).map (fun p => p.schedId) =
        st.currentActive →
      Monitor.checkScheduleChanges zv st (Except.ok schedules) ct = (st, [])) ∧
    ((Monitor.getCurrentActiveContent zv schedules).map (fun p => p.schedId) ≠
        st.currentActive →
      ((Monitor.checkScheduleChanges zv st (Except.ok schedules) ct).2.filter
          Monitor.isContentRefresh).length = 1 ∧
      (Monitor.checkScheduleChanges zv st (Except.ok schedules) ct).1.currentActive =
        (Monitor.getCurrentActiveContent zv schedules).map (fun p => p.schedId)) := by
  constructor
  · intro hwm hid
    unfold Monitor.checkScheduleChanges
    simp [wmFold_unchanged ct schedules st.lastChecked false hwm, hid]
  · intro hne
    unfold Monitor.checkScheduleChanges
    simp [hne, Monitor.isContentRefresh]

/-- The suppression theorem applied to a concrete quiet tick: schedule 10
already known as winner, watermark not exceeded, nothing is emitted. -/
theorem C8_witness :
    Monitor.checkScheduleChanges (zvAt nowMid) st0 (Except.ok [sOld]) 500 = (st0, []) := by
  apply (C8_monitor_suppression (zvAt nowMid) st0 [sOld] 500).1
  · intro s hs
    rw [List.mem_singleton] at hs
    subst hs
    exact ⟨100, rfl, by decide⟩
  · decide

/-- C9: no resolution path ever selects a schedule whose isActive flag is
false: both activity checks imply the flag, every schedule surfacing from
findCurrentlyActive carries the flag, and so does any winner of the
monitor selection loop. -/
theorem C9_never_inactive :
    (∀ (zv : ZV) (s : Schedule),
      SModel.isCurrentlyActive zv s = true → s.isActive = true) ∧
    (∀ (zv : ZV) (fr : Except Unit (List Schedule)) (s : Schedule),
      s ∈ SModel.findCurrentlyActive zv fr → s.isActive = true) ∧
    (∀ (zv : ZV) (m : List Schedule) (s : Schedule),
      pickBest (Monitor.monitorElig zv) m = some s → s.isActive = true) ∧
    (∀ (zv : ZV) (s : Schedule),
      P6.isCurrentlyActive zv s = true → s.isActive = true) := by
  have h1 : ∀ (zv : ZV) (s : Schedule),
      SModel.isCurrentlyActive zv s = true → s.isActive = true := by
    intro zv s h
    cases hA : s.isActive with
    | true => rfl
    | false =>
      rw [SModel.isCurrentlyActive] at h
      simp [hA] at h
  refine ⟨h1, ?_, ?_, ?_⟩
  · intro zv fr s hs
    cases fr with
    | error e => simp [SModel.findCurrentlyActive] at hs
    | ok l =>
      have hs' : s ∈ sortLe leSched (SModel.survivors zv l) := hs
      have hs2 : s ∈ SModel.survivors zv l := (mem_sortLe leSched s _).mp hs'
      unfold SModel.survivors at hs2
      obtain ⟨hmem, _⟩ := List.mem_filter.mp hs2
      obtain ⟨u, hu, rfl⟩ := List.mem_map.mp hmem
      obtain ⟨_, hua⟩ := List.mem_filter.mp hu
      exact h1 zv u hua
  · intro zv m s hp
    obtain ⟨_, helig, _⟩ := pickBest_spec (Monitor.monitorElig zv) m s hp
    simp only [Monitor.monitorElig, Bool.and_eq_true] at helig
    exact h1 zv s helig.2
  · intro zv s h
    cases hA : s.isActive with
    | true => rfl
    | false =>
      rw [P6.isCurrentlyActive] at h
      simp [hA] at h

/-- The isActive theorem applied to the concrete winner of a one-element
monitor selection. -/
theorem C9_witness : sOld.isActive = true :=
  C9_never_inactive.2.2.1 (zvAt nowMid) [sOld] sOld (by decide)

/-- Behaviour of the controller clamp expression in isolation: the result
is always in [1,10], none and values below 1 give 1, values above 10
give 10, in-range values are kept. -/
theorem clampPriority_spec (o : Option Int) :
    1 ≤ Controller.clampPriority o ∧ Controller.clampPriority o ≤ 10 ∧
    (o = Option.none → Controller.clampPriority o = 1) ∧
    (∀ v : Int, o = some v → v < 1 → Controller.clampPriority o = 1) ∧
    (∀ v : Int, o = some v → 10 < v → Controller.clampPriority o = 10) ∧
    (∀ v : Int, o = some v → 1 ≤ v → v ≤ 10 → Controller.clampPriority o = v) := by
  cases o with
  | none =>
    simp only [Controller.clampPriority, Controller.jsOrInt]
    refine ⟨by omega, by omega, fun _ => by omega, ?_, ?_, ?_⟩
    · intro v hv
      exact Option.noConfusion hv
    · intro v hv
      exact Option.noConfusion hv
    · intro v hv
      exact Option.noConfusion hv
  | some v =>
    by_cases hv : v = 0
    · subst hv
      simp only [Controller.clampPriority, Controller.jsOrInt, if_pos rfl]
      refine ⟨by omega, by omega, ?_, ?_, ?_, ?_⟩
      · intro hw
        exact Option.noConfusion hw
      · intro w hw hlt
        omega
      · intro w hw hgt
        injection hw with hw'
        omega
      · intro w hw h1 h2
        injection hw with hw'
        omega
    · simp only [Controller.clampPriority, Controller.jsOrInt, if_neg hv]
      refine ⟨by omega, by omega, ?_, ?_, ?_, ?_⟩
      · intro hw
        exact Option.noConfusion hw
      · intro w hw hlt
        injection hw with hw'
        omega
      · intro w hw hgt
        injection hw with hw'
        omega
      · intro w hw h1 h2
        injection hw with hw'
        omega

/-- C10 counterexample: a create or update request whose other fields
validate but whose priority is 42 (or 0, or non-numeric) receives the 400
of handleValidationErrors; in particular it is NOT stored with the
clamped priority 10 (or 1) the claim predicts — the route validator in
front of the controller rejects instead of clamping. -/
theorem C10_counterexample :
    Routes.mutationRoute true (Routes.PriorityField.intVal 42) =
      Routes.RouteResult.badRequest ∧
    Routes.mutationRoute true (Routes.PriorityField.intVal 42) ≠
      Routes.RouteResult.stored 10 ∧
    Routes.mutationRoute true (Routes.PriorityField.intVal 0) =
      Routes.RouteResult.badRequest ∧
    Routes.mutationRoute true Routes.PriorityField.nonNumeric =
      Routes.RouteResult.badRequest ∧
    Routes.mutationRoute true Routes.PriorityField.missing =
      Routes.RouteResult.stored 1 := by
  refine ⟨by decide, by decide, by decide, by decide, by decide⟩

/-- C10 (amended): on every schedule-create or schedule-update request, a
priority that is present but not an integer in [1,10] is rejected with a
400 validation error before the controller runs, never clamped; a
missing priority defaults to 1 through the controller expression; an
in-range priority is stored unchanged (the clamp is the identity on what
validation lets through); and every stored priority is an integer in
[1,10]. -/
theorem C10_priority_validation (othersOk : Bool) (p : Routes.PriorityField) :
    (∀ v : Int, p = Routes.PriorityField.intVal v → (v < 1 ∨ 10 < v) →
      Routes.mutationRoute othersOk p = Routes.RouteResult.badRequest) ∧
    (p = Routes.PriorityField.nonNumeric →
      Routes.mutationRoute othersOk p = Routes.RouteResult.badRequest) ∧
    (othersOk = true → p = Routes.PriorityField.missing →
      Routes.mutationRoute othersOk p = Routes.RouteResult.stored 1) ∧
    (∀ v : Int, othersOk = true → p = Routes.PriorityField.intVal v →
      1 ≤ v → v ≤ 10 →
      Routes.mutationRoute othersOk p = Routes.RouteResult.stored v) ∧
    (∀ q : Int, Routes.mutationRoute othersOk p = Routes.RouteResult.stored q →
      1 ≤ q ∧ q ≤ 10) := by
  refine ⟨?_, ?_, ?_, ?_, ?_⟩
  · intro v hp hout
    subst hp
    have hval : Routes.priorityValidationOk (Routes.PriorityField.intVal v) = false := by
      simp only [Routes.priorityValidationOk, decide_eq_false_iff_not]
      omega
    simp [Routes.mutationRoute, hval]
  · intro hp
    subst hp
    simp [Routes.mutationRoute, Routes.priorityValidationOk]
  · intro ho hp
    subst ho
    subst hp
    have h1 : Controller.clampPriority (Routes.parseIntOf Routes.PriorityField.missing) = 1 :=
      (clampPriority_spec Option.none).2.2.1 rfl
    simp [Routes.mutationRoute, Routes.priorityValidationOk, h1]
  · intro v ho hp h1 h10
    subst ho
    subst hp
    have hval : Routes.priorityValidationOk (Routes.PriorityField.intVal v) = true := by
      simp only [Routes.priorityValidationOk, decide_eq_true_eq]
      omega
    have hid : Controller.clampPriority (some v) = v :=
      (clampPriority_spec (some v)).2.2.2.2.2 v rfl h1 h10
    simp [Routes.mutationRoute, hval, Routes.parseIntOf, hid]
  · intro q hq
    unfold Routes.mutationRoute at hq
    by_cases hcond : othersOk = false ∨ Routes.priorityValidationOk p = false
    · rw [if_pos hcond] at hq
      exact absurd hq (by simp)
    · rw [if_neg hcond] at hq
      injection hq with hq'
      subst hq'
      exact ⟨(clampPriority_spec (Routes.parseIntOf p)).1,
        (clampPriority_spec (Routes.parseIntOf p)).2.1⟩

/-- The amended validation theorem applied to concrete requests: an
in-range priority 7 is stored unchanged, and a missing priority is
stored as 1. -/
theorem C10_validation_witness :
    Routes.mutationRoute true (Routes.PriorityField.intVal 7) =
      Routes.RouteResult.stored 7 ∧
    Routes.mutationRoute true Routes.PriorityField.missing =
      Routes.RouteResult.stored 1 :=
  ⟨(C10_priority_validation true (Routes.PriorityField.intVal 7)).2.2.2.1 7 rfl rfl
      (by norm_num) (by norm_num),
    (C10_priority_validation true Routes.PriorityField.missing).2.2.1 rfl rfl⟩

end RMS
